import Mathlib

/-!
Shallow embedding of the PlantPilot API (`apps/api/src/index.ts`).

The server keeps five bounded in-memory stores (intake, chat, SOP documents,
SOP entitlements, SOP royalty ledger), each an ordered list held
most-recent-first, trimmed to a per-store cap after every insertion, and
mirrored to a JSON snapshot file.  Request handlers are modelled as pure
functions on an explicit `ServerState`; server-generated values (record ids,
ISO timestamps) are passed in as parameters, since in the source they come
from `Date.now()` / `Math.random()`.
-/

namespace PlantPilot

/-- Type `IntakeRecord` from `index.ts`: the intake payload fields (all strings,
optional ones defaulted to `""` by the schema) plus server-assigned `id` and
`receivedAt`. -/
structure IntakeRecord where
  id : String
  receivedAt : String
  plantName : String
  roomName : String
  targetPpm : String
  targetPh : String
  notes : String
  queuedAt : String
deriving DecidableEq

/-- Type `ChatRecord` from `index.ts`. -/
structure ChatRecord where
  id : String
  message : String
  response : String
  createdAt : String
deriving DecidableEq

/-- The SOP status enumeration `["private", "submitted", "approved", "rejected"]`
(`sopStatusSchema`).  Constructor names carry an `s` prefix because `private`
is a Lean keyword; `statusToString` below maps them to the source strings. -/
inductive SopStatus where
  | sPrivate
  | sSubmitted
  | sApproved
  | sRejected
deriving DecidableEq

/-- Type `SopRecord` from `index.ts`; `submittedAt` and `approvedAt` are the two
optional fields. -/
structure SopRecord where
  id : String
  ownerId : String
  name : String
  stage : String
  notes : String
  status : SopStatus
  createdAt : String
  updatedAt : String
  submittedAt : Option String
  approvedAt : Option String
deriving DecidableEq

/-- Type `SopEntitlementRecord` from `index.ts`; `source` is always the literal
`"apple_iap"` in the source. -/
structure SopEntitlementRecord where
  id : String
  userId : String
  productId : String
  transactionId : String
  source : String
  purchasedAt : String
deriving DecidableEq

/-- Type `SopRoyaltyLedgerRecord` from `index.ts`.  `netRevenueCents` is a
non-negative integer by the request schema (`z.number().int().min(0)`); the
computed `royaltyAmountCents` is modelled as an integer. -/
structure SopRoyaltyLedgerRecord where
  id : String
  productId : String
  creatorId : String
  transactionId : String
  netRevenueCents : ℕ
  royaltyPercent : ℕ
  royaltyAmountCents : ℤ
  createdAt : String
deriving DecidableEq

/-- Type `StoreListing` from `index.ts` (static catalog entry). -/
structure StoreListing where
  id : String
  title : String
  description : String
  priceDisplay : String
  appleProductId : String
  royaltyPercent : ℕ
  creatorId : String
  active : Bool
deriving DecidableEq

/-- The static `STORE_LISTINGS` catalog from `index.ts`. -/
def STORE_LISTINGS : List StoreListing :=
  [ { id := "sop_athena_pro_fade"
    , title := "Athena Pro - Fade Performance"
    , description := "Balanced bloom SOP tuned for stable output and fade control."
    , priceDisplay := "$29.99"
    , appleProductId := "com.growroom.sop.athena_pro_fade"
    , royaltyPercent := 30
    , creatorId := "creator_sharkmouse"
    , active := true }
  , { id := "sop_sharkmouse_core"
    , title := "SharkMouse Core SOP"
    , description := "General-purpose production SOP for predictable harvest cycles."
    , priceDisplay := "$24.99"
    , appleProductId := "com.growroom.sop.sharkmouse_core"
    , royaltyPercent := 30
    , creatorId := "creator_sharkmouse"
    , active := true } ]

/-- The five in-memory stores of the server, most-recent-first. -/
structure ServerState where
  intakeRecords : List IntakeRecord
  chatRecords : List ChatRecord
  sopRecords : List SopRecord
  sopEntitlements : List SopEntitlementRecord
  sopRoyaltyLedger : List SopRoyaltyLedgerRecord
deriving DecidableEq

/-- A server state with all five stores empty. -/
def emptyState : ServerState :=
  { intakeRecords := [], chatRecords := [], sopRecords := []
  , sopEntitlements := [], sopRoyaltyLedger := [] }

/-- The insertion idiom used by every store in `index.ts`:
`records.unshift(record); if (records.length > cap) records.length = cap;`. -/
def unshiftTrim (cap : ℕ) (r : α) (l : List α) : List α :=
  let l2 := r :: l
  if l2.length > cap then l2.take cap else l2

theorem unshiftTrim_eq_take (cap : ℕ) (r : α) (l : List α) :
    unshiftTrim cap r l = (r :: l).take cap := by
  show (if (r :: l).length > cap then (r :: l).take cap else r :: l) = (r :: l).take cap
  split
  · rfl
  · next h =>
    exact (List.take_of_length_le (Nat.le_of_not_lt h)).symm

/-- Handler `POST /v1/intake` after schema validation: append the record to the intake
store (cap 200).  The record (with its generated id / `receivedAt`) is passed
in whole. -/
def intakePost (s : ServerState) (r : IntakeRecord) : ServerState :=
  { s with intakeRecords := unshiftTrim 200 r s.intakeRecords }

/-- The limit computation shared by the `recent` handlers:
`Number.isFinite(parsedLimit) && parsedLimit > 0 ? Math.min(parsedLimit, 50) : 20`.
`none` models a non-finite parse (absent or invalid `limit` query value);
the handled values are integral. -/
def clampLimit (parsedLimit : Option ℤ) : ℕ :=
  match parsedLimit with
  | some n => if 0 < n then (min n 50).toNat else 20
  | none => 20

/-- Handler `GET /v1/intake/recent`: `intakeRecords.slice(0, limit)`. -/
def intakeRecent (s : ServerState) (parsedLimit : Option ℤ) : List IntakeRecord :=
  s.intakeRecords.take (clampLimit parsedLimit)

/-- The in-place update performed by the submit handler on the record it
found: `status = "submitted"; submittedAt = now; updatedAt = submittedAt`. -/
def applySubmit (r : SopRecord) (now : String) : SopRecord :=
  { r with status := .sSubmitted, submittedAt := some now, updatedAt := now }

/-- Model of `sopRecords.find((record) => record.id === id && record.ownerId === userId)`
followed by the in-place mutation of the found record: returns the updated
list together with the updated record, or `none` when no record matches. -/
def submitSopList (id owner now : String) : List SopRecord → Option (List SopRecord × SopRecord)
  | [] => none
  | r :: rest =>
    if r.id = id ∧ r.ownerId = owner then
      some (applySubmit r now :: rest, applySubmit r now)
    else
      match submitSopList id owner now rest with
      | none => none
      | some (rest2, r2) => some (r :: rest2, r2)

/-- Handler `POST /v1/sops/:id/submit`: `none` models the 404 "SOP not found" reply. -/
def submitHandler (s : ServerState) (id owner now : String) :
    Option SopRecord × ServerState :=
  match submitSopList id owner now s.sopRecords with
  | none => (none, s)
  | some (l2, r2) => (some r2, { s with sopRecords := l2 })

/-- Lexicographic strict comparison of char sequences by code point — the JS
`<` on strings (code-unit comparison; identical for the ASCII data here). -/
def charListLtb : List Char → List Char → Bool
  | _, [] => false
  | [], _ :: _ => true
  | a :: as, b :: bs =>
    if a.toNat < b.toNat then true
    else if b.toNat < a.toNat then false
    else charListLtb as bs

/-- JS `a < b` on strings. -/
def jsStrLt (a b : String) : Bool := charListLtb a.data b.data

theorem charListLtb_total : ∀ x y, charListLtb x y = false ∨ charListLtb y x = false := by
  intro x
  induction x with
  | nil =>
    intro y
    cases y with
    | nil => exact Or.inl rfl
    | cons b bs => exact Or.inr rfl
  | cons a as ih =>
    intro y
    cases y with
    | nil => exact Or.inl rfl
    | cons b bs =>
      by_cases hab : a.toNat < b.toNat
      · refine Or.inr ?_
        have hba : ¬b.toNat < a.toNat := by omega
        simp [charListLtb, hba, hab]
      · by_cases hba : b.toNat < a.toNat
        · refine Or.inl ?_
          simp [charListLtb, hab, hba]
        · rcases ih bs with h | h
          · exact Or.inl (by simp [charListLtb, hab, hba, h])
          · exact Or.inr (by simp [charListLtb, hab, hba, h])

theorem charListLtb_false_trans :
    ∀ x y z, charListLtb x y = false → charListLtb y z = false →
      charListLtb x z = false := by
  intro x
  induction x with
  | nil =>
    intro y z h1 h2
    cases y with
    | nil =>
      cases z with
      | nil => rfl
      | cons c cs => exact absurd h2 (by simp [charListLtb])
    | cons b bs => exact absurd h1 (by simp [charListLtb])
  | cons a as ih =>
    intro y z h1 h2
    cases z with
    | nil => rfl
    | cons c cs =>
      cases y with
      | nil => exact absurd h2 (by simp [charListLtb])
      | cons b bs =>
        simp only [charListLtb] at h1 h2 ⊢
        by_cases hab : a.toNat < b.toNat
        · rw [if_pos hab] at h1
          cases h1
        · rw [if_neg hab] at h1
          by_cases hbc : b.toNat < c.toNat
          · rw [if_pos hbc] at h2
            cases h2
          · rw [if_neg hbc] at h2
            by_cases hac : a.toNat < c.toNat
            · exfalso
              omega
            · rw [if_neg hac]
              by_cases hca : c.toNat < a.toNat
              · rw [if_pos hca]
              · rw [if_neg hca]
                have hba : ¬b.toNat < a.toNat := by omega
                have hcb : ¬c.toNat < b.toNat := by omega
                rw [if_neg hba] at h1
                rw [if_neg hcb] at h2
                exact ih bs cs h1 h2

/-- The descending-`purchasedAt` comparison induced by the JS comparator
`(a, b) => (a.purchasedAt < b.purchasedAt ? 1 : -1)`: `a` sorts before `b`
exactly when the comparator is non-positive, i.e. `¬(a.purchasedAt < b.purchasedAt)`.
(The comparator never returns 0, so the relative order of records with equal
timestamps is engine-specific in JS; insertion sort below realises one
admissible outcome.) -/
def purchasedAtDesc (a b : SopEntitlementRecord) : Prop :=
  jsStrLt a.purchasedAt b.purchasedAt = false

instance : DecidableRel purchasedAtDesc := fun a b =>
  inferInstanceAs (Decidable (jsStrLt a.purchasedAt b.purchasedAt = false))

instance : IsTotal SopEntitlementRecord purchasedAtDesc :=
  ⟨fun a b => charListLtb_total a.purchasedAt.data b.purchasedAt.data⟩

instance : IsTrans SopEntitlementRecord purchasedAtDesc :=
  ⟨fun a b c hab hbc =>
    charListLtb_false_trans a.purchasedAt.data b.purchasedAt.data c.purchasedAt.data
      hab hbc⟩

/-- Handler `GET /v1/sops/entitlements`: filter by the caller's user id, sort by
`purchasedAt` descending, `slice(0, 200)`.  (The handler reads no `limit`
query parameter.) -/
def listEntitlements (s : ServerState) (userId : String) : List SopEntitlementRecord :=
  (((s.sopEntitlements.filter (fun e => e.userId == userId)).insertionSort
    purchasedAtDesc).take 200)

/-- The JS `Math.round` on the exact (rational) value of its argument:
round half towards positive infinity, i.e. `⌊q + 1/2⌋`. -/
def mathRound (q : ℚ) : ℤ := ⌊q + 1 / 2⌋

/-- Model of `Math.round((netRevenueCents * listing.royaltyPercent) / 100)` on exact
arithmetic. -/
def computeRoyaltyCents (net pct : ℕ) : ℤ :=
  mathRound ((net : ℚ) * (pct : ℚ) / 100)

/-- Modelled from the spec (§3): round-half-up on integer minor-currency
units, `royaltyAmount = round(netRevenue × royaltyPercent / 100)`; for
non-negative integers this is `⌊(net·pct + 50) / 100⌋` on naturals.  Used to
compare the source's computation against the spec's stated rounding rule. -/
def roundHalfUpCents (net pct : ℕ) : ℤ :=
  ((net * pct + 50) / 100 : ℕ)

/-- Model of `STORE_LISTINGS.find((item) => item.id === productId && item.active)`. -/
def findListing (productId : String) : Option StoreListing :=
  STORE_LISTINGS.find? (fun item => item.id == productId && item.active)

/-- The idempotency predicate of the verify handler: an existing entitlement
matches when user id, product id and transaction id all coincide. -/
def matchesTriple (userId productId transactionId : String)
    (e : SopEntitlementRecord) : Bool :=
  e.userId == userId && e.productId == productId && e.transactionId == transactionId

/-- Result of `POST /v1/sops/iap/verify` (after schema validation):
404 product lookup failure, the idempotent "already owned" success, or a
fresh grant. -/
inductive VerifyResult where
  | productNotFound
  | alreadyOwned (entitlement : SopEntitlementRecord)
  | granted (entitlement : SopEntitlementRecord)
deriving DecidableEq

/-- Handler `POST /v1/sops/iap/verify` after schema validation.  `entId`, `royId` and
`now` stand for the generated entitlement id, ledger-entry id and timestamp. -/
def verifyPurchase (s : ServerState) (userId productId transactionId : String)
    (netRevenueCents : ℕ) (entId royId now : String) : VerifyResult × ServerState :=
  match findListing productId with
  | none => (.productNotFound, s)
  | some listing =>
    match s.sopEntitlements.find? (matchesTriple userId productId transactionId) with
    | some existing => (.alreadyOwned existing, s)
    | none =>
      let entitlement : SopEntitlementRecord :=
        { id := entId, userId := userId, productId := productId
        , transactionId := transactionId, source := "apple_iap", purchasedAt := now }
      let s1 := { s with sopEntitlements := unshiftTrim 5000 entitlement s.sopEntitlements }
      if 0 < netRevenueCents then
        let royaltyEntry : SopRoyaltyLedgerRecord :=
          { id := royId, productId := listing.id, creatorId := listing.creatorId
          , transactionId := transactionId, netRevenueCents := netRevenueCents
          , royaltyPercent := listing.royaltyPercent
          , royaltyAmountCents := computeRoyaltyCents netRevenueCents listing.royaltyPercent
          , createdAt := now }
        (.granted entitlement,
          { s1 with sopRoyaltyLedger := unshiftTrim 5000 royaltyEntry s1.sopRoyaltyLedger })
      else
        (.granted entitlement, s1)

/-! ### Snapshot persistence (`persist*` / `load*` in `index.ts`)

The snapshot files hold one JSON array per store.  `Json` models the parsed
JSON values; a file on disk is modelled by `SnapshotFile`: missing
(`readFile` throws), syntactically invalid (`JSON.parse` throws), or a parsed
JSON value. -/

/-- Parsed JSON values. -/
inductive Json where
  | null
  | jbool (b : Bool)
  | jnum (q : ℚ)
  | jstr (s : String)
  | jarr (elems : List Json)
  | jobj (fields : List (String × Json))

/-- A store's snapshot file as seen by the loader. -/
inductive SnapshotFile where
  | missing
  | invalidJson
  | json (j : Json)

/-- Object field lookup by key. -/
def getField (fields : List (String × Json)) (key : String) : Option Json :=
  (fields.find? (fun p => p.1 == key)).map Prod.snd

/-- Model of `z.string()` on an object field: the key must be present and hold a
string. -/
def getStr (fields : List (String × Json)) (key : String) : Option String :=
  match getField fields key with
  | some (.jstr s) => some s
  | _ => none

/-- Model of `z.string().optional()` on an object field: an absent key is accepted (as
`none`); a present key must hold a string. -/
def getOptStr (fields : List (String × Json)) (key : String) : Option (Option String) :=
  match getField fields key with
  | none => some none
  | some (.jstr s) => some (some s)
  | some _ => none

/-- The wire form of each `SopStatus` value. -/
def statusToString : SopStatus → String
  | .sPrivate => "private"
  | .sSubmitted => "submitted"
  | .sApproved => "approved"
  | .sRejected => "rejected"

/-- Schema `sopStatusSchema` (`z.enum`): accept exactly the four status strings. -/
def statusFromString (s : String) : Option SopStatus :=
  if s == "private" then some .sPrivate
  else if s == "submitted" then some .sSubmitted
  else if s == "approved" then some .sApproved
  else if s == "rejected" then some .sRejected
  else none

/-- The per-element schema used by `loadSopRecords` in `index.ts`. -/
def decodeSopRecord (j : Json) : Option SopRecord :=
  match j with
  | .jobj fields => do
    let id ← getStr fields "id"
    let ownerId ← getStr fields "ownerId"
    let name ← getStr fields "name"
    let stage ← getStr fields "stage"
    let notes ← getStr fields "notes"
    let statusStr ← getStr fields "status"
    let status ← statusFromString statusStr
    let createdAt ← getStr fields "createdAt"
    let updatedAt ← getStr fields "updatedAt"
    let submittedAt ← getOptStr fields "submittedAt"
    let approvedAt ← getOptStr fields "approvedAt"
    pure { id, ownerId, name, stage, notes, status, createdAt, updatedAt,
           submittedAt, approvedAt }
  | _ => none

/-- Model of `JSON.stringify` of one in-memory SOP record: an object with the record's
fields in declaration order; absent optional fields are omitted (JS
`undefined` properties are not serialized). -/
def encodeSopRecord (r : SopRecord) : Json :=
  .jobj
    ([ ("id", .jstr r.id), ("ownerId", .jstr r.ownerId), ("name", .jstr r.name)
     , ("stage", .jstr r.stage), ("notes", .jstr r.notes)
     , ("status", .jstr (statusToString r.status))
     , ("createdAt", .jstr r.createdAt), ("updatedAt", .jstr r.updatedAt) ]
     ++ (match r.submittedAt with
         | some t => [("submittedAt", Json.jstr t)]
         | none => [])
     ++ (match r.approvedAt with
         | some t => [("approvedAt", Json.jstr t)]
         | none => []))

/-- The per-element schema used by `loadIntakeRecords` in `index.ts`: all
eight fields are required strings. -/
def decodeIntakeRecord (j : Json) : Option IntakeRecord :=
  match j with
  | .jobj fields => do
    let id ← getStr fields "id"
    let receivedAt ← getStr fields "receivedAt"
    let plantName ← getStr fields "plantName"
    let roomName ← getStr fields "roomName"
    let targetPpm ← getStr fields "targetPpm"
    let targetPh ← getStr fields "targetPh"
    let notes ← getStr fields "notes"
    let queuedAt ← getStr fields "queuedAt"
    pure { id, receivedAt, plantName, roomName, targetPpm, targetPh, notes, queuedAt }
  | _ => none

/-- Model of `JSON.stringify` of one in-memory intake record. -/
def encodeIntakeRecord (r : IntakeRecord) : Json :=
  .jobj
    [ ("id", .jstr r.id), ("receivedAt", .jstr r.receivedAt)
    , ("plantName", .jstr r.plantName), ("roomName", .jstr r.roomName)
    , ("targetPpm", .jstr r.targetPpm), ("targetPh", .jstr r.targetPh)
    , ("notes", .jstr r.notes), ("queuedAt", .jstr r.queuedAt) ]

/-- Model of `z.array(schema).parse`: every element must decode, otherwise the whole
parse fails. -/
def decodeAll (dec : Json → Option α) : List Json → Option (List α)
  | [] => some []
  | j :: rest =>
    match dec j with
    | none => none
    | some r =>
      match decodeAll dec rest with
      | none => none
      | some rs => some (r :: rs)

/-- Model of `loadSopRecords` in `index.ts`: any read/parse/validation failure is
caught and leaves the store empty; a valid array is admitted whole and then
trimmed to the first 500 elements. -/
def loadSopRecords (f : SnapshotFile) : List SopRecord :=
  match f with
  | .missing => []
  | .invalidJson => []
  | .json j =>
    match j with
    | .jarr elems =>
      match decodeAll decodeSopRecord elems with
      | some records => records.take 500
      | none => []
    | _ => []

/-- Model of `loadIntakeRecords` in `index.ts` (cap 200), same failure handling. -/
def loadIntakeRecords (f : SnapshotFile) : List IntakeRecord :=
  match f with
  | .missing => []
  | .invalidJson => []
  | .json j =>
    match j with
    | .jarr elems =>
      match decodeAll decodeIntakeRecord elems with
      | some records => records.take 200
      | none => []
    | _ => []

/-- Model of `persistSopRecords` in `index.ts`: serialize the current in-memory list
as one JSON array. -/
def persistSopRecords (records : List SopRecord) : SnapshotFile :=
  .json (.jarr (records.map encodeSopRecord))

/-- Model of `persistIntakeRecords` in `index.ts`. -/
def persistIntakeRecords (records : List IntakeRecord) : SnapshotFile :=
  .json (.jarr (records.map encodeIntakeRecord))

/-! ### Helper lemmas -/

theorem decodeSopRecord_encode (r : SopRecord) :
    decodeSopRecord (encodeSopRecord r) = some r := by
  obtain ⟨id, ownerId, name, stage, notes, status, createdAt, updatedAt, sub, app⟩ := r
  cases status <;> cases sub <;> cases app <;> rfl

theorem decodeIntakeRecord_encode (r : IntakeRecord) :
    decodeIntakeRecord (encodeIntakeRecord r) = some r := by
  obtain ⟨id, receivedAt, plantName, roomName, targetPpm, targetPh, notes, queuedAt⟩ := r
  rfl

theorem decodeAll_map_encode {α : Type} (dec : Json → Option α) (enc : α → Json)
    (hround : ∀ r, dec (enc r) = some r) (l : List α) :
    decodeAll dec (l.map enc) = some l := by
  induction l with
  | nil => rfl
  | cons r rest ih =>
    simp only [List.map_cons, decodeAll, hround r, ih]

theorem decodeAll_eq_none {α : Type} (dec : Json → Option α) (es : List Json)
    (e : Json) (he : e ∈ es) (hdec : dec e = none) :
    decodeAll dec es = none := by
  induction es with
  | nil => cases he
  | cons j rest ih =>
    cases he with
    | head => simp [decodeAll, hdec]
    | tail _ hmem =>
      unfold decodeAll
      rcases hj : dec j with _ | r
      · rfl
      · rw [ih hmem]

/-- C6: Flush/load round-trip.  Serializing a store's in-memory sequence to
its snapshot file and reloading it reproduces the exact pre-restart sequence
(same records, same order), truncated to the loader's cap when the file holds
more records than the cap (500 for the SOP store, 200 for the intake store). -/
theorem flush_load_roundtrip :
    (∀ records : List SopRecord,
      loadSopRecords (persistSopRecords records) = records.take 500) ∧
    (∀ records : List IntakeRecord,
      loadIntakeRecords (persistIntakeRecords records) = records.take 200) := by
  constructor
  · intro records
    simp [loadSopRecords, persistSopRecords,
      decodeAll_map_encode decodeSopRecord encodeSopRecord decodeSopRecord_encode]
  · intro records
    simp [loadIntakeRecords, persistIntakeRecords,
      decodeAll_map_encode decodeIntakeRecord encodeIntakeRecord decodeIntakeRecord_encode]

/-- C7: Snapshot loading is all-or-nothing.  A missing file, a file with
invalid JSON, a JSON value that is not an array, or an array with any element
failing the entity schema all yield an empty store — no element is admitted. -/
theorem intake_load_all_or_nothing :
    loadIntakeRecords .missing = [] ∧
    loadIntakeRecords .invalidJson = [] ∧
    (∀ j : Json, (∀ es, j ≠ .jarr es) → loadIntakeRecords (.json j) = []) ∧
    (∀ es e, e ∈ es → decodeIntakeRecord e = none →
      loadIntakeRecords (.json (.jarr es)) = []) := by
  refine ⟨rfl, rfl, ?_, ?_⟩
  · intro j h
    cases j with
    | jarr es => exact absurd rfl (h es)
    | null => rfl
    | jbool b => rfl
    | jnum q => rfl
    | jstr s => rfl
    | jobj fields => rfl
  · intro es e he hdec
    simp [loadIntakeRecords, decodeAll_eq_none decodeIntakeRecord es e he hdec]

/-- Witness for C7: a file holding a non-array JSON value, and a file holding
an array whose single element fails the intake schema, both load as the empty
store. -/
theorem intake_load_all_or_nothing_witness :
    loadIntakeRecords (.json (.jstr "oops")) = [] ∧
    loadIntakeRecords (.json (.jarr [Json.null])) = [] :=
  ⟨intake_load_all_or_nothing.2.2.1 (.jstr "oops") (fun _ h => nomatch h),
   intake_load_all_or_nothing.2.2.2 [Json.null] Json.null (List.mem_singleton.mpr rfl) rfl⟩

/-- The source's `Math.round((net * pct) / 100)` agrees with round-half-up on
integer cents. -/
theorem computeRoyaltyCents_eq (net pct : ℕ) :
    computeRoyaltyCents net pct = roundHalfUpCents net pct := by
  unfold computeRoyaltyCents mathRound roundHalfUpCents
  have hq : (net : ℚ) * (pct : ℚ) / 100 + 1 / 2 = ((net * pct + 50 : ℕ) : ℚ) / 100 := by
    push_cast
    ring
  rw [hq, Int.floor_eq_iff]
  constructor
  · rw [le_div_iff₀ (by norm_num : (0 : ℚ) < 100)]
    exact_mod_cast Nat.div_mul_le_self (net * pct + 50) 100
  · rw [div_lt_iff₀ (by norm_num : (0 : ℚ) < 100)]
    have hn : net * pct + 50 < ((net * pct + 50) / 100 + 1) * 100 := by
      have h1 := Nat.div_add_mod (net * pct + 50) 100
      have h2 : (net * pct + 50) % 100 < 100 := Nat.mod_lt _ (by norm_num)
      omega
    exact_mod_cast hn

/-- C3: every ledger entry a `verifyPurchase` call adds satisfies
`royaltyAmountCents = round(netRevenueCents × royaltyPercent / 100)` with
round-half-up on integer cents, and in particular 1000 cents at 30 percent
yields 300 and 999 cents at 33 percent yields 330. -/
theorem royalty_amount_rounding :
    (∀ (s : ServerState) (u p t : String) (net : ℕ) (eid rid now : String),
      ∀ e ∈ ((verifyPurchase s u p t net eid rid now).2).sopRoyaltyLedger,
        e ∈ s.sopRoyaltyLedger ∨
          e.royaltyAmountCents = roundHalfUpCents e.netRevenueCents e.royaltyPercent) ∧
    computeRoyaltyCents 1000 30 = 300 ∧
    computeRoyaltyCents 999 33 = 330 := by
  refine ⟨?_, ?_, ?_⟩
  · intro s u p t net eid rid now e he
    unfold verifyPurchase at he
    rcases hf : findListing p with _ | listing <;> rw [hf] at he
    · exact Or.inl he
    · rcases hx : s.sopEntitlements.find? (matchesTriple u p t) with _ | existing <;>
        rw [hx] at he
      · by_cases hn : 0 < net
        · simp only [if_pos hn, unshiftTrim_eq_take] at he
          have he2 := (List.take_sublist _ _).mem he
          cases he2 with
          | head => exact Or.inr (computeRoyaltyCents_eq net listing.royaltyPercent)
          | tail _ hmem => exact Or.inl hmem
        · simp only [if_neg hn] at he
          exact Or.inl he
      · exact Or.inl he
  · rw [computeRoyaltyCents_eq]
    decide
  · rw [computeRoyaltyCents_eq]
    decide

/-- The ledger entry added by the witness purchase below. -/
def witnessLedgerEntry : SopRoyaltyLedgerRecord :=
  { id := "roy_1", productId := "sop_athena_pro_fade", creatorId := "creator_sharkmouse"
  , transactionId := "txn_1", netRevenueCents := 1000, royaltyPercent := 30
  , royaltyAmountCents := computeRoyaltyCents 1000 30, createdAt := "T1" }

/-- Witness for C3: the entry posted by a concrete purchase of
`sop_athena_pro_fade` for 1000 cents carries the half-up rounded royalty. -/
theorem royalty_amount_rounding_witness :
    witnessLedgerEntry ∈ emptyState.sopRoyaltyLedger ∨
      witnessLedgerEntry.royaltyAmountCents =
        roundHalfUpCents witnessLedgerEntry.netRevenueCents witnessLedgerEntry.royaltyPercent :=
  royalty_amount_rounding.1 emptyState "user_1" "sop_athena_pro_fade" "txn_1" 1000
    "ent_1" "roy_1" "T1" witnessLedgerEntry
    (by
      have h : (verifyPurchase emptyState "user_1" "sop_athena_pro_fade" "txn_1" 1000
          "ent_1" "roy_1" "T1").2.sopRoyaltyLedger = [witnessLedgerEntry] := rfl
      rw [h]
      exact List.mem_singleton.mpr rfl)

/-! ### Bounded append (C4) -/

/-- The effect of a sequence of appends, oldest first, on one store starting
from empty: each append is the `unshift`/trim idiom of `index.ts`. -/
def appendAll (cap : ℕ) (rs : List α) : List α :=
  rs.foldl (fun l r => unshiftTrim cap r l) []

theorem take_cons_take (cap : ℕ) (r : α) (l : List α) :
    (r :: l.take cap).take cap = (r :: l).take cap := by
  cases cap with
  | zero => rfl
  | succ n =>
    simp [List.take_succ_cons, List.take_take, Nat.min_eq_left (Nat.le_succ n)]

theorem foldl_unshiftTrim (cap : ℕ) (rs : List α) :
    ∀ init : List α,
      rs.foldl (fun l r => unshiftTrim cap r l) (init.take cap) =
        (rs.reverse ++ init).take cap := by
  induction rs with
  | nil => intro init; simp
  | cons r rest ih =>
    intro init
    simp only [List.foldl_cons]
    rw [unshiftTrim_eq_take, take_cons_take, ih (r :: init)]
    simp [List.reverse_cons, List.append_assoc]

/-- C4: after any sequence of N appends into a store with cap C starting from
an empty store, the store holds `min N C` records, and they are exactly the C
most recent appends in most-recent-first order (`rs` lists the appended
records oldest first, so `rs.reverse.take cap` is that sequence). -/
theorem bounded_append (cap : ℕ) (rs : List α) :
    (appendAll cap rs).length = min rs.length cap ∧
    appendAll cap rs = rs.reverse.take cap := by
  have h : appendAll cap rs = rs.reverse.take cap := by
    have h0 := foldl_unshiftTrim cap rs []
    simpa [appendAll] using h0
  refine ⟨?_, h⟩
  rw [h, List.length_take, List.length_reverse, Nat.min_comm]

/-! ### The intake scenario of spec §8 (C5) -/

/-- Plant names "Tomato-A", "Tomato-2", …, "Tomato-205" of the spec §8
scenario. -/
def tomatoName (i : ℕ) : String :=
  if i = 1 then "Tomato-A" else "Tomato-" ++ toString i

/-- The i-th intake record of the scenario (optional fields empty, as the
intake schema defaults them). -/
def tomatoRecord (i : ℕ) : IntakeRecord :=
  { id := "intake_" ++ toString i, receivedAt := "", plantName := tomatoName i
  , roomName := "", targetPpm := "", targetPh := "", notes := "", queuedAt := "" }

/-- The server state after the 205 intake appends of the scenario, in order. -/
def tomatoState : ServerState :=
  ((List.range 205).map (fun i => tomatoRecord (i + 1))).foldl intakePost emptyState

set_option maxRecDepth 10000

/-- Counterexample to C5: after the 205 appends, `GET /v1/intake/recent` with
`limit = 200` returns 50 items, not the 200 the claim states, because the
handler clamps the limit to `min(limit, 50)`. -/
theorem tomato_list200_counterexample :
    (intakeRecent tomatoState (some 200)).length = 50 ∧
    ¬(intakeRecent tomatoState (some 200)).length = 200 := by
  constructor <;> decide

/-- C5 amended: after the 205 appends the store itself holds exactly 200
records with head "Tomato-205" and tail "Tomato-6" (the first five appends
evicted), but `list(200)` returns only `min(200, 50) = 50` items, from
"Tomato-205" down to "Tomato-156". -/
theorem tomato_scenario :
    tomatoState.intakeRecords.length = 200 ∧
    tomatoState.intakeRecords.head?.map IntakeRecord.plantName = some "Tomato-205" ∧
    tomatoState.intakeRecords.getLast?.map IntakeRecord.plantName = some "Tomato-6" ∧
    (intakeRecent tomatoState (some 200)).length = 50 ∧
    (intakeRecent tomatoState (some 200)).head?.map IntakeRecord.plantName
      = some "Tomato-205" ∧
    (intakeRecent tomatoState (some 200)).getLast?.map IntakeRecord.plantName
      = some "Tomato-156" := by
  refine ⟨?_, ?_, ?_, ?_, ?_, ?_⟩ <;> decide

/-! ### SOP submit (C2, C8, C10) -/

theorem submitSopList_eq_none_iff (id owner now : String) (l : List SopRecord) :
    submitSopList id owner now l = none ↔
      ∀ r ∈ l, ¬(r.id = id ∧ r.ownerId = owner) := by
  induction l with
  | nil => simp [submitSopList]
  | cons r rest ih =>
    unfold submitSopList
    by_cases h : r.id = id ∧ r.ownerId = owner
    · rw [if_pos h]
      constructor
      · intro hc; cases hc
      · intro hall
        exact absurd h (hall r (List.mem_cons_self r rest))
    · rw [if_neg h]
      rcases hr : submitSopList id owner now rest with _ | p
      · constructor
        · intro _ q hq
          rcases List.mem_cons.mp hq with rfl | hq2
          · exact h
          · exact (ih.mp hr) q hq2
        · intro _; rfl
      · constructor
        · intro hc; cases hc
        · intro hall
          have hnone : submitSopList id owner now rest = none :=
            ih.mpr (fun q hq => hall q (List.mem_cons_of_mem r hq))
          rw [hnone] at hr
          cases hr

theorem submitSopList_eq_some (id owner now : String) :
    ∀ (l l2 : List SopRecord) (r2 : SopRecord),
      submitSopList id owner now l = some (l2, r2) →
      ∃ pre r post, l = pre ++ r :: post ∧
        l2 = pre ++ applySubmit r now :: post ∧
        r2 = applySubmit r now ∧ r.id = id ∧ r.ownerId = owner := by
  intro l
  induction l with
  | nil => intro l2 r2 h; cases h
  | cons r rest ih =>
    intro l2 r2 h
    unfold submitSopList at h
    by_cases hc : r.id = id ∧ r.ownerId = owner
    · rw [if_pos hc] at h
      have h3 := Option.some.inj h
      injection h3 with h4 h5
      subst h4
      subst h5
      exact ⟨[], r, rest, rfl, rfl, rfl, hc.1, hc.2⟩
    · rw [if_neg hc] at h
      rcases hr : submitSopList id owner now rest with _ | p
      · rw [hr] at h
        cases h
      · obtain ⟨rest2, q2⟩ := p
        rw [hr] at h
        have h' : some (r :: rest2, q2) = some (l2, r2) := h
        have h3 := Option.some.inj h'
        injection h3 with h4 h5
        subst h4
        subst h5
        obtain ⟨pre, rr, post, hl, hl2, hr2, hid, hown⟩ := ih rest2 q2 hr
        exact ⟨r :: pre, rr, post, by simp [hl], by simp [hl2], hr2, hid, hown⟩

/-- C8: `submit(id, owner)` fails with NotFound exactly when no record in the
SOP store has both that id and that owner (a record owned by another user is
indistinguishable from an absent one); when such a record exists the call
succeeds and returns the record with `status = submitted` and
`submittedAt = updatedAt = now`. -/
theorem submit_notFound_semantics (s : ServerState) (id owner now : String) :
    ((submitHandler s id owner now).1 = none ↔
      ∀ r ∈ s.sopRecords, ¬(r.id = id ∧ r.ownerId = owner)) ∧
    (∀ r2, (submitHandler s id owner now).1 = some r2 →
      r2.status = .sSubmitted ∧ r2.submittedAt = some now ∧ r2.updatedAt = now) := by
  constructor
  · rcases hr : submitSopList id owner now s.sopRecords with _ | p
    · have h1 : submitHandler s id owner now = (none, s) := by
        unfold submitHandler
        rw [hr]
      rw [h1]
      constructor
      · intro _
        exact (submitSopList_eq_none_iff id owner now s.sopRecords).mp hr
      · intro _
        rfl
    · obtain ⟨l2, q2⟩ := p
      have h1 : submitHandler s id owner now = (some q2, { s with sopRecords := l2 }) := by
        unfold submitHandler
        rw [hr]
      rw [h1]
      constructor
      · intro hc
        cases hc
      · intro hall
        have hnone := (submitSopList_eq_none_iff id owner now s.sopRecords).mpr hall
        rw [hnone] at hr
        cases hr
  · intro r2 h
    rcases hr : submitSopList id owner now s.sopRecords with _ | p
    · have h1 : submitHandler s id owner now = (none, s) := by
        unfold submitHandler
        rw [hr]
      rw [h1] at h
      cases h
    · obtain ⟨l2, q2⟩ := p
      have h1 : submitHandler s id owner now = (some q2, { s with sopRecords := l2 }) := by
        unfold submitHandler
        rw [hr]
      rw [h1] at h
      have h3 : q2 = r2 := Option.some.inj h
      obtain ⟨pre, rr, post, _, _, hq2, _, _⟩ :=
        submitSopList_eq_some id owner now s.sopRecords l2 q2 hr
      rw [← h3, hq2]
      exact ⟨rfl, rfl, rfl⟩

/-- A private SOP owned by `user_1`, used as a concrete witness state. -/
def privateSop : SopRecord :=
  { id := "sop_1", ownerId := "user_1", name := "Veg SOP", stage := "veg"
  , notes := "", status := .sPrivate
  , createdAt := "2024-01-01T00:00:00.000Z", updatedAt := "2024-01-01T00:00:00.000Z"
  , submittedAt := none, approvedAt := none }

/-- A server state holding only `privateSop`. -/
def privateState : ServerState := { emptyState with sopRecords := [privateSop] }

/-- Witness for C8: submitting `sop_1` as `user_2` fails with NotFound, and
submitting it as its owner `user_1` yields the submitted record with both
timestamps set to now. -/
theorem submit_notFound_semantics_witness :
    (submitHandler privateState "sop_1" "user_2" "2024-03-03T00:00:00.000Z").1 = none ∧
    ((applySubmit privateSop "2024-03-03T00:00:00.000Z").status = .sSubmitted ∧
      (applySubmit privateSop "2024-03-03T00:00:00.000Z").submittedAt
        = some "2024-03-03T00:00:00.000Z" ∧
      (applySubmit privateSop "2024-03-03T00:00:00.000Z").updatedAt
        = "2024-03-03T00:00:00.000Z") :=
  ⟨(submit_notFound_semantics privateState "sop_1" "user_2"
      "2024-03-03T00:00:00.000Z").1.mpr (by decide),
   (submit_notFound_semantics privateState "sop_1" "user_1"
      "2024-03-03T00:00:00.000Z").2 (applySubmit privateSop "2024-03-03T00:00:00.000Z")
      (by decide)⟩

/-- An already-submitted SOP owned by `user_1`. -/
def submittedSop : SopRecord :=
  { id := "sop_1", ownerId := "user_1", name := "Bloom SOP", stage := "bloom"
  , notes := "", status := .sSubmitted
  , createdAt := "2024-01-01T00:00:00.000Z", updatedAt := "2024-01-02T00:00:00.000Z"
  , submittedAt := some "2024-01-02T00:00:00.000Z", approvedAt := none }

/-- A server state holding only `submittedSop`. -/
def submittedState : ServerState := { emptyState with sopRecords := [submittedSop] }

/-- Counterexample to C2: submitting an already-`submitted` record (by its
owner) is NOT rejected — the call succeeds and overwrites the record's
`submittedAt`/`updatedAt` with the new timestamp. -/
theorem submit_resubmit_counterexample :
    ¬(submitHandler submittedState "sop_1" "user_1" "2024-02-02T00:00:00.000Z").1 = none ∧
    (submitHandler submittedState "sop_1" "user_1"
        "2024-02-02T00:00:00.000Z").2.sopRecords.head?.map SopRecord.updatedAt
      = some "2024-02-02T00:00:00.000Z" ∧
    ¬(submitHandler submittedState "sop_1" "user_1"
        "2024-02-02T00:00:00.000Z").2.sopRecords = submittedState.sopRecords := by
  refine ⟨?_, ?_, ?_⟩ <;> decide

/-- C2 amended: the submit handler performs no status check at all — whenever
a record with the given id and owner exists, regardless of its current status
(`private`, `submitted`, `approved` or `rejected`), the call succeeds and
(re)sets `status = submitted` and `submittedAt = updatedAt = now`.  Only the
`private → submitted` transition is intended, but nothing rejects the
others. -/
theorem submit_ignores_status (s : ServerState) (id owner now : String)
    (h : ∃ r ∈ s.sopRecords, r.id = id ∧ r.ownerId = owner) :
    ∃ r2, (submitHandler s id owner now).1 = some r2 ∧
      r2.status = .sSubmitted ∧ r2.submittedAt = some now ∧ r2.updatedAt = now := by
  rcases hr : submitSopList id owner now s.sopRecords with _ | p
  · obtain ⟨r, hmem, hp⟩ := h
    exact absurd hp ((submitSopList_eq_none_iff id owner now s.sopRecords).mp hr r hmem)
  · obtain ⟨l2, q2⟩ := p
    obtain ⟨pre, rr, post, _, _, hq2, _, _⟩ :=
      submitSopList_eq_some id owner now s.sopRecords l2 q2 hr
    refine ⟨q2, ?_, ?_, ?_, ?_⟩
    · unfold submitHandler
      rw [hr]
    · rw [hq2]; rfl
    · rw [hq2]; rfl
    · rw [hq2]; rfl

/-- Witness for C2 (amended): resubmitting the already-`submitted` record
succeeds with both timestamps reset. -/
theorem submit_ignores_status_witness :
    ∃ r2, (submitHandler submittedState "sop_1" "user_1"
        "2024-02-02T00:00:00.000Z").1 = some r2 ∧
      r2.status = .sSubmitted ∧ r2.submittedAt = some "2024-02-02T00:00:00.000Z" ∧
      r2.updatedAt = "2024-02-02T00:00:00.000Z" :=
  submit_ignores_status submittedState "sop_1" "user_1" "2024-02-02T00:00:00.000Z"
    ⟨submittedSop, by decide, by decide⟩

/-- C10: a successful submit changes only the targeted record's `status`,
`submittedAt` and `updatedAt`: its other seven fields are unchanged, every
other SOP record is untouched (same prefix and suffix), and the intake, chat,
entitlement and royalty-ledger stores are unchanged. -/
theorem submit_frame (s : ServerState) (id owner now : String) (r2 : SopRecord)
    (h : (submitHandler s id owner now).1 = some r2) :
    (submitHandler s id owner now).2.intakeRecords = s.intakeRecords ∧
    (submitHandler s id owner now).2.chatRecords = s.chatRecords ∧
    (submitHandler s id owner now).2.sopEntitlements = s.sopEntitlements ∧
    (submitHandler s id owner now).2.sopRoyaltyLedger = s.sopRoyaltyLedger ∧
    ∃ pre r post, s.sopRecords = pre ++ r :: post ∧
      (submitHandler s id owner now).2.sopRecords = pre ++ r2 :: post ∧
      r2.id = r.id ∧ r2.ownerId = r.ownerId ∧ r2.name = r.name ∧
      r2.stage = r.stage ∧ r2.notes = r.notes ∧ r2.createdAt = r.createdAt ∧
      r2.approvedAt = r.approvedAt := by
  rcases hr : submitSopList id owner now s.sopRecords with _ | p
  · have h1 : submitHandler s id owner now = (none, s) := by
      unfold submitHandler
      rw [hr]
    rw [h1] at h
    cases h
  · obtain ⟨l2, q2⟩ := p
    have h1 : submitHandler s id owner now = (some q2, { s with sopRecords := l2 }) := by
      unfold submitHandler
      rw [hr]
    rw [h1] at h
    have h3 : q2 = r2 := Option.some.inj h
    obtain ⟨pre, rr, post, hl, hl2, hq2, _, _⟩ :=
      submitSopList_eq_some id owner now s.sopRecords l2 q2 hr
    subst h3
    rw [h1]
    refine ⟨rfl, rfl, rfl, rfl, pre, rr, post, hl, ?_, ?_⟩
    · show l2 = pre ++ q2 :: post
      rw [hq2]
      exact hl2
    · rw [hq2]
      exact ⟨rfl, rfl, rfl, rfl, rfl, rfl, rfl⟩

/-- Witness for C10: the successful submit of `privateSop` leaves the other
four stores and all non-lifecycle fields unchanged. -/
theorem submit_frame_witness :
    (submitHandler privateState "sop_1" "user_1" "T2").2.intakeRecords
      = privateState.intakeRecords ∧
    (submitHandler privateState "sop_1" "user_1" "T2").2.chatRecords
      = privateState.chatRecords ∧
    (submitHandler privateState "sop_1" "user_1" "T2").2.sopEntitlements
      = privateState.sopEntitlements ∧
    (submitHandler privateState "sop_1" "user_1" "T2").2.sopRoyaltyLedger
      = privateState.sopRoyaltyLedger ∧
    ∃ pre r post, privateState.sopRecords = pre ++ r :: post ∧
      (submitHandler privateState "sop_1" "user_1" "T2").2.sopRecords
        = pre ++ applySubmit privateSop "T2" :: post ∧
      (applySubmit privateSop "T2").id = r.id ∧
      (applySubmit privateSop "T2").ownerId = r.ownerId ∧
      (applySubmit privateSop "T2").name = r.name ∧
      (applySubmit privateSop "T2").stage = r.stage ∧
      (applySubmit privateSop "T2").notes = r.notes ∧
      (applySubmit privateSop "T2").createdAt = r.createdAt ∧
      (applySubmit privateSop "T2").approvedAt = r.approvedAt :=
  submit_frame privateState "sop_1" "user_1" "T2" (applySubmit privateSop "T2") (by decide)

/-! ### Entitlement listing (C9) -/

/-- A concrete entitlement for `user_1` with a distinct purchase timestamp. -/
def entRec (i : ℕ) : SopEntitlementRecord :=
  { id := "ent_" ++ toString i, userId := "user_1", productId := "sop_athena_pro_fade"
  , transactionId := "txn_" ++ toString i, source := "apple_iap"
  , purchasedAt := "2024-01-01T00:00:" ++ toString (10 + i) }

/-- A server state holding 21 entitlements for `user_1`. -/
def entState : ServerState :=
  { emptyState with sopEntitlements := (List.range 21).map entRec }

/-- Counterexample to C9: with 21 entitlements for the user and no limit
supplied, the handler returns all 21 items — not the 20 that the §4.1
default-limit contract would require.  The handler reads no `limit` query
parameter at all and slices to 200 unconditionally. -/
theorem listEntitlements_no_limit_counterexample :
    (listEntitlements entState "user_1").length = 21 ∧
    ¬(listEntitlements entState "user_1").length = 20 := by
  constructor <;> decide

/-- C9 amended: listing a user's entitlements returns exactly that user's
records, sorted most-recent-first by `purchasedAt`, capped at 200 — it does
not consult a `limit` parameter, so no default-20 / ceiling-50 clamping
applies. -/
theorem listEntitlements_spec (s : ServerState) (u : String) :
    (listEntitlements s u).length
      = min (s.sopEntitlements.countP (fun e => e.userId == u)) 200 ∧
    (∀ e ∈ listEntitlements s u, e.userId = u) ∧
    List.Sorted purchasedAtDesc (listEntitlements s u) := by
  refine ⟨?_, ?_, ?_⟩
  · unfold listEntitlements
    rw [List.length_take, List.length_insertionSort,
      ← List.countP_eq_length_filter, Nat.min_comm]
  · intro e he
    unfold listEntitlements at he
    have he2 := (List.take_sublist _ _).mem he
    have he3 := (List.perm_insertionSort purchasedAtDesc _).mem_iff.mp he2
    have he4 := List.mem_filter.mp he3
    exact eq_of_beq he4.2
  · exact (List.sorted_insertionSort purchasedAtDesc _).sublist (List.take_sublist _ _)

/-- Witness for C9 (amended), at the concrete 21-entitlement state. -/
theorem listEntitlements_spec_witness :
    (listEntitlements entState "user_1").length
      = min (entState.sopEntitlements.countP (fun e => e.userId == "user_1")) 200 ∧
    (entRec 0).userId = "user_1" :=
  ⟨(listEntitlements_spec entState "user_1").1,
   (listEntitlements_spec entState "user_1").2.1 (entRec 0) (by decide)⟩

/-! ### Idempotent purchase verification (C1) -/

/-- The entitlement record built by `verifyPurchase` for a fresh purchase. -/
def freshEntitlement (u p t eid now : String) : SopEntitlementRecord :=
  { id := eid, userId := u, productId := p, transactionId := t
  , source := "apple_iap", purchasedAt := now }

/-- The ledger entry built by `verifyPurchase` when revenue is reported. -/
def freshRoyaltyEntry (t : String) (net : ℕ) (rid now : String)
    (listing : StoreListing) : SopRoyaltyLedgerRecord :=
  { id := rid, productId := listing.id, creatorId := listing.creatorId
  , transactionId := t, netRevenueCents := net
  , royaltyPercent := listing.royaltyPercent
  , royaltyAmountCents := computeRoyaltyCents net listing.royaltyPercent
  , createdAt := now }

/-- Characterization of `verifyPurchase` on a fresh purchase: with the
product listed and no entitlement matching the triple, the call grants a new
entitlement, prepends it (trimmed to cap 5000), and posts a royalty entry
exactly when the reported revenue is positive. -/
theorem verifyPurchase_fresh (s : ServerState) (u p t : String) (net : ℕ)
    (eid rid now : String) (listing : StoreListing)
    (hl : findListing p = some listing)
    (hfind : s.sopEntitlements.find? (matchesTriple u p t) = none) :
    verifyPurchase s u p t net eid rid now =
      (.granted (freshEntitlement u p t eid now),
       { s with
         sopEntitlements :=
           unshiftTrim 5000 (freshEntitlement u p t eid now) s.sopEntitlements
         sopRoyaltyLedger :=
           if 0 < net then
             unshiftTrim 5000 (freshRoyaltyEntry t net rid now listing) s.sopRoyaltyLedger
           else s.sopRoyaltyLedger }) := by
  unfold verifyPurchase
  rw [hl, hfind]
  dsimp only
  by_cases hn : 0 < net
  · rw [if_pos hn, if_pos hn]
    rfl
  · rw [if_neg hn, if_neg hn]
    rfl

theorem matchesTriple_fresh (u p t eid now : String) :
    matchesTriple u p t (freshEntitlement u p t eid now) = true := by
  simp [matchesTriple, freshEntitlement]

/-- C1: from a state with no entitlement for the triple `(u, p, t)` and no
ledger entry for transaction `t`, calling `verifyPurchase` twice with the
same user-supplied arguments grants exactly one entitlement for the triple
and posts exactly one ledger entry for the transaction when `net > 0` (zero
when `net = 0`); the second call returns success with the entitlement created
by the first call and the "already owned" flag, and leaves the state
untouched. -/
theorem verifyPurchase_idempotent (s : ServerState) (u p t : String) (net : ℕ)
    (eid1 rid1 now1 eid2 rid2 now2 : String) (listing : StoreListing)
    (hl : findListing p = some listing)
    (hent : s.sopEntitlements.countP (matchesTriple u p t) = 0)
    (hled : s.sopRoyaltyLedger.countP (fun e => e.transactionId == t) = 0) :
    ∃ ent,
      (verifyPurchase s u p t net eid1 rid1 now1).1 = .granted ent ∧
      verifyPurchase (verifyPurchase s u p t net eid1 rid1 now1).2 u p t net eid2 rid2 now2
        = (.alreadyOwned ent, (verifyPurchase s u p t net eid1 rid1 now1).2) ∧
      ((verifyPurchase s u p t net eid1 rid1 now1).2).sopEntitlements.countP
        (matchesTriple u p t) = 1 ∧
      ((verifyPurchase s u p t net eid1 rid1 now1).2).sopRoyaltyLedger.countP
        (fun e => e.transactionId == t) = (if 0 < net then 1 else 0) := by
  have hfind : s.sopEntitlements.find? (matchesTriple u p t) = none := by
    rw [List.find?_eq_none]
    exact List.countP_eq_zero.mp hent
  have hchar := verifyPurchase_fresh s u p t net eid1 rid1 now1 listing hl hfind
  refine ⟨freshEntitlement u p t eid1 now1, ?_, ?_, ?_, ?_⟩
  · rw [hchar]
  · rw [hchar]
    dsimp only
    have hs1ent :
        unshiftTrim 5000 (freshEntitlement u p t eid1 now1) s.sopEntitlements
          = freshEntitlement u p t eid1 now1 :: s.sopEntitlements.take 4999 := by
      rw [unshiftTrim_eq_take]
      rw [show (5000 : ℕ) = 4999 + 1 from rfl, List.take_succ_cons]
    unfold verifyPurchase
    rw [hl]
    dsimp only
    rw [hs1ent, List.find?_cons_of_pos _ (matchesTriple_fresh u p t eid1 now1)]
  · rw [hchar]
    dsimp only
    rw [unshiftTrim_eq_take, show (5000 : ℕ) = 4999 + 1 from rfl, List.take_succ_cons,
      List.countP_cons_of_pos _ _ (matchesTriple_fresh u p t eid1 now1)]
    have hle : (s.sopEntitlements.take 4999).countP (matchesTriple u p t)
        ≤ s.sopEntitlements.countP (matchesTriple u p t) :=
      (List.take_sublist 4999 s.sopEntitlements).countP_le _
    omega
  · rw [hchar]
    dsimp only
    by_cases hn : 0 < net
    · rw [if_pos hn, if_pos hn]
      rw [unshiftTrim_eq_take, show (5000 : ℕ) = 4999 + 1 from rfl, List.take_succ_cons,
        List.countP_cons_of_pos]
      · have hle : (s.sopRoyaltyLedger.take 4999).countP (fun e => e.transactionId == t)
            ≤ s.sopRoyaltyLedger.countP (fun e => e.transactionId == t) :=
          (List.take_sublist 4999 s.sopRoyaltyLedger).countP_le _
        omega
      · simp [freshRoyaltyEntry]
    · rw [if_neg hn, if_neg hn]
      exact hled

/-- The first listing of `STORE_LISTINGS`, used as a concrete witness. -/
def athenaListing : StoreListing :=
  { id := "sop_athena_pro_fade"
  , title := "Athena Pro - Fade Performance"
  , description := "Balanced bloom SOP tuned for stable output and fade control."
  , priceDisplay := "$29.99"
  , appleProductId := "com.growroom.sop.athena_pro_fade"
  , royaltyPercent := 30
  , creatorId := "creator_sharkmouse"
  , active := true }

/-- Witness for C1, at the empty state and a concrete purchase of
`sop_athena_pro_fade` for 1000 cents. -/
theorem verifyPurchase_idempotent_witness :
    ∃ ent,
      (verifyPurchase emptyState "user_1" "sop_athena_pro_fade" "txn_1" 1000
        "e1" "r1" "T1").1 = .granted ent ∧
      verifyPurchase
          (verifyPurchase emptyState "user_1" "sop_athena_pro_fade" "txn_1" 1000
            "e1" "r1" "T1").2
          "user_1" "sop_athena_pro_fade" "txn_1" 1000 "e2" "r2" "T2"
        = (.alreadyOwned ent,
           (verifyPurchase emptyState "user_1" "sop_athena_pro_fade" "txn_1" 1000
             "e1" "r1" "T1").2) ∧
      ((verifyPurchase emptyState "user_1" "sop_athena_pro_fade" "txn_1" 1000
        "e1" "r1" "T1").2).sopEntitlements.countP
          (matchesTriple "user_1" "sop_athena_pro_fade" "txn_1") = 1 ∧
      ((verifyPurchase emptyState "user_1" "sop_athena_pro_fade" "txn_1" 1000
        "e1" "r1" "T1").2).sopRoyaltyLedger.countP
          (fun e => e.transactionId == "txn_1") = (if 0 < 1000 then 1 else 0) :=
  verifyPurchase_idempotent emptyState "user_1" "sop_athena_pro_fade" "txn_1" 1000
    "e1" "r1" "T1" "e2" "r2" "T2" athenaListing (by decide) rfl rfl

end PlantPilot
